import Mathlib

/-
Verification of the CSV table widget (src/csvwidget/table.ts): a shallow
embedding of the CSVModel / CSVTable pair and proofs about the claims of the
design specification.

Conventions of the embedding:
* JavaScript `undefined` is modelled by `Option.none`; a TS field of type
  `string` that can in fact hold `undefined` is modelled as `Option String`.
* Signal emissions are made explicit: every mutating operation returns the
  list of events it emits, in emission order.
* The external delimiter parser (d3-dsv) and the signalling / VDom model
  infrastructure are outside this repository; the definitions that stand in
  for them are marked `Modelled from the spec:` in their doc comments.
-/

/-- The hard limit on the number of rows to display (`DISPLAY_LIMIT = 1000`
in table.ts). -/
def DISPLAY_LIMIT : Nat := 1000

/-- A parsed row: a mapping from column name to cell text, in column order
(spec section 3, ParsedTable).  A column name that is absent from the mapping
corresponds to a JS object lookup yielding `undefined`. -/
abbrev Row := List (String × String)

/-- The result of the delimiter parser: the ordered data rows plus the ordered
column list taken from the header record; `columns` is `none` when the parser
saw no record at all (`rows.columns` is `undefined` in that case, which is why
the view reads it with `|| []`). -/
structure ParsedTable where
  rows : List Row
  columns : Option (List String)
deriving DecidableEq

/-- Split a character list at every occurrence of `sep`; `acc` holds the
(reversed) characters of the current field. -/
def splitOnCharAux (sep : Char) : List Char → List Char → List (List Char)
  | [], acc => [acc.reverse]
  | c :: cs, acc =>
      if c = sep then acc.reverse :: splitOnCharAux sep cs []
      else splitOnCharAux sep cs (c :: acc)

/-- Split a character list at every occurrence of `sep`. -/
def splitOnChar (sep : Char) (s : List Char) : List (List Char) :=
  splitOnCharAux sep s []

/-- Modelled from the spec: the external parser (d3-dsv) separates the fields
of one record with the first character of the delimiter string (glossary:
"fields are separated by a fixed character"); with an empty delimiter string
no character matches and the whole record is a single field. -/
def splitFields (delimiter : String) (line : List Char) : List String :=
  match delimiter.data.head? with
  | none => [String.mk line]
  | some sep => (splitOnChar sep line).map String.mk

/-- A trailing line terminator does not open an extra empty record. -/
def dropTrailingEmptyRecord (records : List (List Char)) : List (List Char) :=
  if records.getLast? = some ([] : List Char) then records.dropLast else records

/-- Modelled from the spec: the delimiter-parsing routine, an external library
(d3-dsv) declared out of scope by spec section 1.  Records are lines and
fields are separated by the delimiter character (glossary); the first record
is the header fixing the column order (section 4.1); every later record
becomes a row pairing column names with cell text in order, stopping at the
shorter of the two lists (section 3, section 4.2 "empty if missing"); a
trailing newline does not create an extra record; empty text yields no rows
and no column list.  Quoting is not described by the spec and is not
modelled. -/
def dsvParse (delimiter : String) (text : String) : ParsedTable :=
  if text = "" then ⟨[], none⟩
  else
    match dropTrailingEmptyRecord (splitOnChar (Char.ofNat 10) text.data) with
    | [] => ⟨[], none⟩
    | header :: body =>
        ⟨body.map (fun line =>
            (splitFields delimiter header).zip (splitFields delimiter line)),
         some (splitFields delimiter header)⟩

/-- The value emitted when there are more data rows than can be displayed
(`CSVModel.IOverflow` in table.ts). -/
structure IOverflow where
  available : Nat
  maximum : Nat
deriving DecidableEq

/-- The observable notifications of the model: the state-changed signal of the
VDom model base class and the `maxExceeded` overflow signal. -/
inductive Event where
  | stateChanged
  | maxExceeded (overflow : IOverflow)
deriving DecidableEq

/-- The state of a `CSVModel`.  `_content` and `_delimiter` are the private
fields of table.ts; `_content` is an `Option` because the constructor stores
`options.content`, which is `undefined` when the option is absent.
`isDisposed` and `observers` are modelled from the spec: the disposal flag of
the VDom model base class (src/common/vdom, not part of the provided sources)
and the observer registrations of the signalling layer (spec section 4.1). -/
structure CSVModel where
  _content : Option String
  _delimiter : String
  isDisposed : Bool
  observers : List Nat
deriving DecidableEq

/-- Instantiation options for CSV models (`CSVModel.IOptions` in table.ts);
an absent option is `none`. -/
structure CSVModel.IOptions where
  content : Option String
  delimiter : Option String
deriving DecidableEq

/-- The constructor of table.ts.  The field initializers (`_content = ''`,
`_delimiter = ''`) run first and are then overwritten by the constructor
body: `this._content = options.content` (so `undefined` when the option is
absent) and `this._delimiter = options.delimiter || ','` (so `','` when the
option is absent or the empty string).  A fresh model is not disposed and has
no observers. -/
def CSVModel.new (options : CSVModel.IOptions) : CSVModel :=
  { _content := options.content
    _delimiter :=
      match options.delimiter with
      | none => ","
      | some d => if d = "" then "," else d
    isDisposed := false
    observers := [] }

/-- The `content` getter of table.ts (the value can be `undefined`). -/
def CSVModel.content (m : CSVModel) : Option String := m._content

/-- The `delimiter` getter of table.ts. -/
def CSVModel.delimiter (m : CSVModel) : String := m._delimiter

/-- The `content` setter of table.ts: a no-op when the stored value is
already (strictly) equal to the argument; otherwise store the new value and
emit one state-changed notification. -/
def CSVModel.setContent (m : CSVModel) (content : String) :
    CSVModel × List Event :=
  if m._content = some content then (m, [])
  else ({ m with _content := some content }, [Event.stateChanged])

/-- The `delimiter` setter of table.ts: a no-op when the stored value is
already equal to the argument; otherwise store the new value (verbatim, with
no empty-string fallback) and emit one state-changed notification. -/
def CSVModel.setDelimiter (m : CSVModel) (delimiter : String) :
    CSVModel × List Event :=
  if m._delimiter = delimiter then (m, [])
  else ({ m with _delimiter := delimiter }, [Event.stateChanged])

/-- Modelled from the spec: registration of an observer with the signalling
layer (spec section 4.1, "zero or more registered observers"); the signalling
infrastructure itself (phosphor) is external. -/
def CSVModel.connect (m : CSVModel) (observer : Nat) : CSVModel :=
  { m with observers := observer :: m.observers }

/-- Modelled from the spec: `dispose()` of table.ts returns immediately when
the model is already disposed; otherwise `super.dispose()` (the VDom model
base class, src/common/vdom, not part of the provided sources) marks the
model disposed and `clearSignalData(this)` (external) releases all observer
subscriptions (spec section 4.1). -/
def CSVModel.dispose (m : CSVModel) : CSVModel :=
  if m.isDisposed then m
  else { m with isDisposed := true, observers := [] }

/-- `parse()` of table.ts: parse the content with the stored delimiter; when
the row count exceeds `DISPLAY_LIMIT`, `output.splice(0, DISPLAY_LIMIT)`
removes the first `DISPLAY_LIMIT` rows from the array in place (the removed
rows, returned by `splice`, are discarded), `maxExceeded` is emitted with the
length of the array after the removal, and the mutated array is returned.
The body assigns no field, so the model state is passed through unchanged.
`none` models the exception the external parser raises when `_content` is
`undefined`. -/
def CSVModel.parse (m : CSVModel) : Option (CSVModel × ParsedTable × List Event) :=
  match m._content with
  | none => none
  | some text =>
      let output := dsvParse m._delimiter text
      if output.rows.length > DISPLAY_LIMIT then
        let spliced := output.rows.drop DISPLAY_LIMIT
        some (m, ⟨spliced, output.columns⟩,
              [Event.maxExceeded ⟨spliced.length, DISPLAY_LIMIT⟩])
      else
        some (m, output, [])

/-- The virtual table tree produced by the view: the node constructors used by
`CSVTable.render`.  A `td` holds the looked-up cell value; `h.td(row[col])`
receives `undefined` (here `none`) when the row has no such column. -/
inductive VNode where
  | table (children : List VNode)
  | thead (children : List VNode)
  | tbody (children : List VNode)
  | tr (children : List VNode)
  | th (text : String)
  | td (text : Option String)

/-- `CSVTable.render` of table.ts: call the bound model's `parse()`, read the
column list (`rows.columns || []`), and build one header row with a `th` per
column followed by one body row per data row with a `td` per column.  `none`
when `parse()` throws. -/
def CSVTable.render (m : CSVModel) : Option VNode :=
  (m.parse).map (fun out =>
    let rows := out.2.1
    let cols := rows.columns.getD []
    VNode.table [
      VNode.thead (cols.map VNode.th),
      VNode.tbody (rows.rows.map (fun row =>
        VNode.tr (cols.map (fun col => VNode.td (List.lookup col row)))))])

/-
Helper lemmas about the record splitter and about replicated lists; they feed
the oversized-content computations below.
-/

/-- Splitting a separator-free list yields the single field made of the
accumulator followed by the list. -/
lemma splitOnCharAux_no_sep (sep : Char) (xs : List Char) (acc : List Char)
    (h : sep ∉ xs) : splitOnCharAux sep xs acc = [acc.reverse ++ xs] := by
  induction xs generalizing acc with
  | nil => simp [splitOnCharAux]
  | cons c cs ih =>
      have hc : ¬(c = sep) := fun he => h (by simp [he])
      have hcs : sep ∉ cs := fun hm => h (by simp [hm])
      simp [splitOnCharAux, hc, ih _ hcs]

/-- Splitting past a separator-free prefix closes exactly one field at the
separator. -/
lemma splitOnCharAux_append_sep (sep : Char) (xs rest acc : List Char)
    (h : sep ∉ xs) :
    splitOnCharAux sep (xs ++ sep :: rest) acc
      = (acc.reverse ++ xs) :: splitOnCharAux sep rest [] := by
  induction xs generalizing acc with
  | nil => simp [splitOnCharAux]
  | cons c cs ih =>
      have hc : ¬(c = sep) := fun he => h (by simp [he])
      have hcs : sep ∉ cs := fun hm => h (by simp [hm])
      simp [splitOnCharAux, hc, ih _ hcs]

/-- Join a list of records with a separator character between them. -/
def joinSep (sep : Char) : List (List Char) → List Char
  | [] => []
  | [xs] => xs
  | xs :: ys :: yss => xs ++ sep :: joinSep sep (ys :: yss)

/-- Splitting inverts joining as long as no record contains the separator. -/
lemma splitOnChar_joinSep (sep : Char) (xs : List Char)
    (xss : List (List Char)) (h : ∀ ys ∈ xs :: xss, sep ∉ ys) :
    splitOnChar sep (joinSep sep (xs :: xss)) = xs :: xss := by
  induction xss generalizing xs with
  | nil =>
      have := splitOnCharAux_no_sep sep xs [] (h xs (by simp))
      simpa [splitOnChar, joinSep] using this
  | cons ys yss ih =>
      have hxs : sep ∉ xs := h xs (by simp)
      have htail : ∀ zs ∈ ys :: yss, sep ∉ zs := by
        intro zs hzs
        exact h zs (by simp [hzs])
      have hjoin : joinSep sep (xs :: ys :: yss)
          = xs ++ sep :: joinSep sep (ys :: yss) := rfl
      have := splitOnCharAux_append_sep sep xs (joinSep sep (ys :: yss)) [] hxs
      calc splitOnChar sep (joinSep sep (xs :: ys :: yss))
          = xs :: splitOnCharAux sep (joinSep sep (ys :: yss)) [] := by
            simpa [splitOnChar, hjoin] using this
        _ = xs :: (ys :: yss) := by
            have := ih ys htail
            simpa [splitOnChar] using this

/-- Dropping a prefix of a replicated list leaves a replicated list. -/
lemma replicate_drop {α : Type} (k n : Nat) (a : α) :
    (List.replicate n a).drop k = List.replicate (n - k) a := by
  induction k generalizing n with
  | zero => simp
  | succ k ih =>
      cases n with
      | zero => simp
      | succ n =>
          simp [List.replicate_succ, Nat.succ_sub_succ, ih n]

/-- The last record of a nonempty replicated tail. -/
lemma getLast?_cons_replicate {α : Type} (n : Nat) (a b : α) :
    (a :: List.replicate (n + 1) b).getLast? = some b := by
  rw [List.replicate_succ', show a :: (List.replicate n b ++ [b])
      = (a :: List.replicate n b) ++ [b] from rfl]
  exact List.getLast?_concat _

/-- Parsing a separator-joined record list recovers the records: header and
body, with no trailing-record adjustment needed. -/
lemma dsvParse_joinSep (delimiter : String) (xs : List Char)
    (xss : List (List Char))
    (hne : joinSep (Char.ofNat 10) (xs :: xss) ≠ [])
    (hnl : ∀ ys ∈ xs :: xss, (Char.ofNat 10) ∉ ys)
    (hlast : (xs :: xss).getLast? ≠ some ([] : List Char)) :
    dsvParse delimiter (String.mk (joinSep (Char.ofNat 10) (xs :: xss)))
      = ⟨xss.map (fun line =>
            (splitFields delimiter xs).zip (splitFields delimiter line)),
         some (splitFields delimiter xs)⟩ := by
  have htext : (String.mk (joinSep (Char.ofNat 10) (xs :: xss))) ≠ "" := by
    intro hcontr
    exact hne (by simpa using congrArg String.data hcontr)
  have hdata : (String.mk (joinSep (Char.ofNat 10) (xs :: xss))).data
      = joinSep (Char.ofNat 10) (xs :: xss) := rfl
  unfold dsvParse
  rw [if_neg htext, hdata, splitOnChar_joinSep _ _ _ hnl]
  unfold dropTrailingEmptyRecord
  rw [if_neg hlast]

/-
An oversized concrete input: a header record `h` followed by 2500 identical
data records `1`, joined by newlines.  Its parsed row count is 2500.
-/

/-- The records of the oversized input: header `h`, then 2500 data lines. -/
def bigRecords : List (List Char) :=
  [Char.ofNat 104] :: List.replicate 2500 [Char.ofNat 49]

/-- The oversized content: 2500 data rows under a one-column header. -/
def bigContent : String := String.mk (joinSep (Char.ofNat 10) bigRecords)

/-- A model holding the oversized content, with the default delimiter. -/
def bigModel : CSVModel := CSVModel.new ⟨some bigContent, none⟩

/-- The row produced by each oversized data line. -/
def bigRow : Row := [("h", "1")]

lemma bigRecords_no_newline : ∀ ys ∈ bigRecords, (Char.ofNat 10) ∉ ys := by
  intro ys hys
  rcases List.mem_cons.mp hys with h | h
  · subst h; decide
  · rw [List.eq_of_mem_replicate h]; decide

/-- A record starting with a character never joins to the empty list. -/
lemma joinSep_cons_ne_nil (sep c : Char) (cs : List Char)
    (xss : List (List Char)) : joinSep sep ((c :: cs) :: xss) ≠ [] := by
  cases xss with
  | nil => simp [joinSep]
  | cons ys yss => simp [joinSep]

lemma dsvParse_bigContent :
    dsvParse "," bigContent = ⟨List.replicate 2500 bigRow, some ["h"]⟩ := by
  have hne : joinSep (Char.ofNat 10) bigRecords ≠ [] :=
    joinSep_cons_ne_nil (Char.ofNat 10) (Char.ofNat 104) []
      (List.replicate 2500 [Char.ofNat 49])
  have hlast : bigRecords.getLast? ≠ some ([] : List Char) := by
    rw [show bigRecords
          = [Char.ofNat 104] :: List.replicate (2499 + 1) [Char.ofNat 49] from rfl,
        getLast?_cons_replicate]
    simp
  have h := dsvParse_joinSep "," [Char.ofNat 104]
      (List.replicate 2500 [Char.ofNat 49]) hne bigRecords_no_newline hlast
  rw [show bigContent = String.mk (joinSep (Char.ofNat 10)
        ([Char.ofNat 104] :: List.replicate 2500 [Char.ofNat 49])) from rfl, h]
  simp only [List.map_replicate]
  rw [(by decide : (splitFields "," [Char.ofNat 104]).zip
        (splitFields "," [Char.ofNat 49]) = bigRow)]
  rw [(by decide : splitFields "," [Char.ofNat 104] = ["h"])]

lemma bigModel_parse :
    bigModel.parse = some (bigModel,
      ⟨List.replicate 1500 bigRow, some ["h"]⟩,
      [Event.maxExceeded ⟨1500, DISPLAY_LIMIT⟩]) := by
  have hc : bigModel._content = some bigContent := rfl
  unfold CSVModel.parse
  rw [hc]
  simp only [show bigModel._delimiter = "," from rfl, dsvParse_bigContent,
    List.length_replicate]
  rw [if_pos (by decide : 2500 > DISPLAY_LIMIT)]
  rw [replicate_drop]
  rw [(by decide : (2500 : Nat) - DISPLAY_LIMIT = 1500), List.length_replicate]

/-
The claims.
-/

/-- C1: the claim fails on the code.  For `bigContent`, whose parsed row
count is 2500 (greater than 1000), `parse()` does not return the first 1000
data rows: `output.splice(0, DISPLAY_LIMIT)` removes the first 1000 rows and
keeps the remainder, so `parse()` returns the 1500 rows after index 1000 —
more than the display limit its own doc comment promises, and not the prefix
the spec requires. -/
theorem c1_parse_keeps_remainder_not_first_rows :
    (dsvParse "," bigContent).rows.length = 2500
  ∧ bigModel.parse = some (bigModel,
      ⟨(dsvParse "," bigContent).rows.drop DISPLAY_LIMIT, some ["h"]⟩,
      [Event.maxExceeded ⟨1500, DISPLAY_LIMIT⟩])
  ∧ ((dsvParse "," bigContent).rows.drop DISPLAY_LIMIT).length = 1500
  ∧ (dsvParse "," bigContent).rows.drop DISPLAY_LIMIT
      ≠ (dsvParse "," bigContent).rows.take DISPLAY_LIMIT := by
  rw [dsvParse_bigContent]
  refine ⟨List.length_replicate .., ?_, ?_, ?_⟩
  · rw [replicate_drop, (by decide : (2500 : Nat) - DISPLAY_LIMIT = 1500)]
    exact bigModel_parse
  · rw [replicate_drop, (by decide : (2500 : Nat) - DISPLAY_LIMIT = 1500),
      List.length_replicate]
  · intro heq
    have hlen := congrArg List.length heq
    simp only [List.length_drop, List.length_take, List.length_replicate] at hlen
    exact absurd hlen (by decide)

/-- C2: the claim fails on the code.  For `bigContent`, whose true original
row count is 2500, the overflow notification carries
`available = output.length` measured after the splice removed the first 1000
rows, i.e. 1500, not the original count — even though the field's own doc
comment says "the actual number of rows in the data".  (`maximum = 1000` is
emitted as the claim states.) -/
theorem c2_overflow_available_undercounts :
    (dsvParse "," bigContent).rows.length = 2500
  ∧ bigModel.parse = some (bigModel,
      ⟨List.replicate 1500 bigRow, some ["h"]⟩,
      [Event.maxExceeded ⟨1500, DISPLAY_LIMIT⟩])
  ∧ (1500 : Nat) ≠ (dsvParse "," bigContent).rows.length := by
  rw [dsvParse_bigContent]
  exact ⟨List.length_replicate .., bigModel_parse,
    by rw [List.length_replicate]; decide⟩

/-- C3: for content whose parsed row count is at most 1000, `parse()` returns
the full parsed sequence unmodified (hence exactly that many rows), emits no
notification at all, and leaves the model untouched. -/
theorem c3_parse_within_limit_returns_all_rows (m : CSVModel) (text : String)
    (hc : m._content = some text)
    (hlen : (dsvParse m._delimiter text).rows.length ≤ DISPLAY_LIMIT) :
    m.parse = some (m, dsvParse m._delimiter text, []) := by
  unfold CSVModel.parse
  rw [hc]
  simp only [if_neg (Nat.not_lt.mpr hlen)]

/-- Witness for C3 at the spec's example content. -/
theorem c3_parse_within_limit_witness :
    (CSVModel.new ⟨some "a,b\n1,2\n3,4", none⟩).parse
      = some (CSVModel.new ⟨some "a,b\n1,2\n3,4", none⟩,
          dsvParse "," "a,b\n1,2\n3,4", []) :=
  c3_parse_within_limit_returns_all_rows _ _ rfl (by decide)

/-- C4: each setter is a strict no-op (same state, no notification) when the
assigned value equals the stored one, and otherwise stores exactly the new
value and emits exactly one state-changed notification. -/
theorem c4_setters_noop_or_single_notification (m : CSVModel) (v : String) :
    (m._content = some v → m.setContent v = (m, []))
  ∧ (m._content ≠ some v →
      (m.setContent v).1 = { m with _content := some v }
      ∧ (m.setContent v).2 = [Event.stateChanged])
  ∧ (m._delimiter = v → m.setDelimiter v = (m, []))
  ∧ (m._delimiter ≠ v →
      (m.setDelimiter v).1 = { m with _delimiter := v }
      ∧ (m.setDelimiter v).2 = [Event.stateChanged]) := by
  refine ⟨fun h => ?_, fun h => ?_, fun h => ?_, fun h => ?_⟩ <;>
    simp [CSVModel.setContent, CSVModel.setDelimiter, h]

/-- Witness for C4: both setters, both branches, at concrete values. -/
theorem c4_setters_witness :
    (CSVModel.new ⟨some "x", none⟩).setContent "x"
      = (CSVModel.new ⟨some "x", none⟩, [])
  ∧ ((CSVModel.new ⟨some "x", none⟩).setContent "y").2 = [Event.stateChanged]
  ∧ (CSVModel.new ⟨some "x", none⟩).setDelimiter ","
      = (CSVModel.new ⟨some "x", none⟩, [])
  ∧ ((CSVModel.new ⟨some "x", none⟩).setDelimiter ";").2
      = [Event.stateChanged] :=
  ⟨(c4_setters_noop_or_single_notification _ "x").1 (by decide),
   ((c4_setters_noop_or_single_notification _ "y").2.1 (by decide)).2,
   (c4_setters_noop_or_single_notification _ ",").2.2.1 (by decide),
   ((c4_setters_noop_or_single_notification _ ";").2.2.2 (by decide)).2⟩

/-- Shared equation: `parse()` on defined content within the display limit. -/
lemma CSVModel.parse_within_limit (m : CSVModel) (text : String)
    (hc : m._content = some text)
    (hlen : (dsvParse m._delimiter text).rows.length ≤ DISPLAY_LIMIT) :
    m.parse = some (m, dsvParse m._delimiter text, []) := by
  unfold CSVModel.parse
  rw [hc]
  simp only [if_neg (Nat.not_lt.mpr hlen)]

/-- Shared equation: `parse()` on defined content over the display limit. -/
lemma CSVModel.parse_over_limit (m : CSVModel) (text : String)
    (hc : m._content = some text)
    (hlen : (dsvParse m._delimiter text).rows.length > DISPLAY_LIMIT) :
    m.parse = some (m,
      ⟨(dsvParse m._delimiter text).rows.drop DISPLAY_LIMIT,
       (dsvParse m._delimiter text).columns⟩,
      [Event.maxExceeded
        ⟨((dsvParse m._delimiter text).rows.drop DISPLAY_LIMIT).length,
         DISPLAY_LIMIT⟩]) := by
  unfold CSVModel.parse
  rw [hc]
  simp only [if_pos hlen]

/-- Shared equation: `parse()` on undefined content (the external parser
throws). -/
lemma CSVModel.parse_undefined (m : CSVModel) (hc : m._content = none) :
    m.parse = none := by
  unfold CSVModel.parse
  rw [hc]

/-- C5: `render()` produces, from the current `parse()` result, one header
row with a `th` per column holding the column name, followed by one body row
per data row with a `td` per column holding that row's value for the
column. -/
theorem c5_render_table_structure (m m' : CSVModel) (t : ParsedTable)
    (evs : List Event) (h : m.parse = some (m', t, evs)) :
    CSVTable.render m = some (VNode.table [
      VNode.thead ((t.columns.getD []).map VNode.th),
      VNode.tbody (t.rows.map (fun row =>
        VNode.tr ((t.columns.getD []).map
          (fun col => VNode.td (List.lookup col row)))))]) := by
  unfold CSVTable.render
  rw [h]
  rfl

/-- Witness for C5 at the spec's example: content `a,b\n1,2\n3,4` with
delimiter `,` renders header `a`, `b` and body rows `1`, `2` and `3`, `4`. -/
theorem c5_render_example_witness :
    CSVTable.render (CSVModel.new ⟨some "a,b\n1,2\n3,4", none⟩)
      = some (VNode.table [
          VNode.thead [VNode.th "a", VNode.th "b"],
          VNode.tbody [
            VNode.tr [VNode.td (some "1"), VNode.td (some "2")],
            VNode.tr [VNode.td (some "3"), VNode.td (some "4")]]]) := by
  have h := c5_render_table_structure
      (CSVModel.new ⟨some "a,b\n1,2\n3,4", none⟩)
      (CSVModel.new ⟨some "a,b\n1,2\n3,4", none⟩)
      (dsvParse "," "a,b\n1,2\n3,4") [] (by decide)
  exact h.trans rfl

/-- C6: the claim fails on the code.  With no options the constructor body
overwrites the `_content` field initializer with `options.content`, i.e.
`undefined`, so a fresh model's content is `undefined`, not the empty
string; the delimiter half of the claim does hold. -/
theorem c6_default_content_is_undefined :
    (CSVModel.new ⟨none, none⟩).content = none
  ∧ (CSVModel.new ⟨none, none⟩).content ≠ some ""
  ∧ (CSVModel.new ⟨none, none⟩).delimiter = "," := by
  refine ⟨rfl, ?_, rfl⟩
  decide

/-- C7: counterexample to the claim as stated.  Assigning the empty string
through the `delimiter` setter stores it verbatim: the observed delimiter
becomes the empty string, not the `,` the claim promises. -/
theorem c7_setter_stores_empty_delimiter :
    ((CSVModel.new ⟨none, none⟩).setDelimiter "").1.delimiter = ""
  ∧ ((CSVModel.new ⟨none, none⟩).setDelimiter "").1.delimiter ≠ "," := by
  refine ⟨rfl, ?_⟩
  decide

/-- C7 (amended): the `,` fallback applies only at construction — the
observed delimiter is `,` when the option is unset or empty — while the
setter stores any assigned string verbatim, including the empty string. -/
theorem c7_delimiter_default_only_at_construction (c : Option String)
    (m : CSVModel) (d : String) :
    (CSVModel.new ⟨c, none⟩).delimiter = ","
  ∧ (CSVModel.new ⟨c, some ""⟩).delimiter = ","
  ∧ ((m.setDelimiter d).1).delimiter = d := by
  refine ⟨rfl, rfl, ?_⟩
  by_cases h : m._delimiter = d <;>
    simp [CSVModel.setDelimiter, CSVModel.delimiter, h]

/-- C8: disposal is idempotent: the first call on a live model marks it
disposed and releases every observer registration; a second call is a no-op;
the operation is total, so no call raises. -/
theorem c8_dispose_idempotent_clears_observers (m : CSVModel)
    (h : m.isDisposed = false) :
    (m.dispose).isDisposed = true
  ∧ (m.dispose).observers = []
  ∧ m.dispose.dispose = m.dispose := by
  simp [CSVModel.dispose, h]

/-- Witness for C8: a fresh model with one registered observer. -/
theorem c8_dispose_witness :
    (((CSVModel.new ⟨none, none⟩).connect 7).dispose).isDisposed = true
  ∧ (((CSVModel.new ⟨none, none⟩).connect 7).dispose).observers = []
  ∧ ((CSVModel.new ⟨none, none⟩).connect 7).dispose.dispose
      = ((CSVModel.new ⟨none, none⟩).connect 7).dispose :=
  c8_dispose_idempotent_clears_observers _ rfl

/-- C9: when the parse result carries no columns (e.g. empty content),
`render()` still succeeds and produces an empty header row and body rows
with no cells. -/
theorem c9_render_zero_columns_safe (m m' : CSVModel) (t : ParsedTable)
    (evs : List Event) (h : m.parse = some (m', t, evs))
    (hc : t.columns.getD [] = []) :
    CSVTable.render m = some (VNode.table [
      VNode.thead [],
      VNode.tbody (t.rows.map (fun _ => VNode.tr []))]) := by
  unfold CSVTable.render
  rw [h]
  simp [hc]

/-- Witness for C9 at empty content: parse yields no rows and no column
list, and render yields an empty header and an empty body. -/
theorem c9_render_empty_content_witness :
    CSVTable.render (CSVModel.new ⟨some "", none⟩)
      = some (VNode.table [VNode.thead [], VNode.tbody []]) := by
  have h := c9_render_zero_columns_safe (CSVModel.new ⟨some "", none⟩)
      (CSVModel.new ⟨some "", none⟩) ⟨[], none⟩ [] (by decide) (by decide)
  exact h.trans rfl

/-- C10: `parse()` never mutates the observable state: the model it returns
is the input model (so content and delimiter are unchanged), and no
state-changed notification is emitted — only `maxExceeded` may appear. -/
theorem c10_parse_preserves_observable_state (m m' : CSVModel)
    (t : ParsedTable) (evs : List Event)
    (h : m.parse = some (m', t, evs)) :
    m' = m ∧ m'.content = m.content ∧ m'.delimiter = m.delimiter
      ∧ Event.stateChanged ∉ evs := by
  cases hcontent : m._content with
  | none =>
      rw [CSVModel.parse_undefined m hcontent] at h
      exact absurd h (by simp)
  | some text =>
      by_cases hlen : (dsvParse m._delimiter text).rows.length > DISPLAY_LIMIT
      · rw [CSVModel.parse_over_limit m text hcontent hlen] at h
        simp only [Option.some.injEq, Prod.mk.injEq] at h
        obtain ⟨h1, h2, h3⟩ := h
        subst h1
        rw [← h3]
        exact ⟨rfl, rfl, rfl, by simp⟩
      · rw [CSVModel.parse_within_limit m text hcontent
            (Nat.not_lt.mp hlen)] at h
        simp only [Option.some.injEq, Prod.mk.injEq] at h
        obtain ⟨h1, h2, h3⟩ := h
        subst h1
        rw [← h3]
        exact ⟨rfl, rfl, rfl, by simp⟩

/-- Witness for C10 at concrete content. -/
theorem c10_parse_frame_witness :
    CSVModel.new ⟨some "x,y\n1,2", none⟩ = CSVModel.new ⟨some "x,y\n1,2", none⟩
  ∧ (CSVModel.new ⟨some "x,y\n1,2", none⟩).content
      = (CSVModel.new ⟨some "x,y\n1,2", none⟩).content
  ∧ (CSVModel.new ⟨some "x,y\n1,2", none⟩).delimiter
      = (CSVModel.new ⟨some "x,y\n1,2", none⟩).delimiter
  ∧ Event.stateChanged ∉ ([] : List Event) :=
  c10_parse_preserves_observable_state _ _ (dsvParse "," "x,y\n1,2") []
    (by decide)
